import Mathlib

/-!
Verification development for the bottomless WAL replicator
(src/bottomless/src/replicator.rs and src/bottomless/src/backup.rs).

The Rust code is shallowly embedded:
* `u32`/`usize` counters become `Nat` with an explicit `% 2 ^ 32` where the
  source performs wrapping `u32` arithmetic;
* fallible operations (`anyhow::Result`) become `Except Nat _`, with error
  payloads abstracted to numeric codes (the source only carries human-readable
  messages there);
* object-store keys (Rust `&str`) become lists of character codes
  (`List Nat`), so that formatting and parsing can be reasoned about exactly;
* the effectful parts of `restore_from` (file renames, downloads, WAL batch
  application) are recorded as an explicit effect trace.
-/

-- Decidable equality for `Except`, used to evaluate concrete runs.
deriving instance DecidableEq for Except

/-! ## Replicator state (struct `Replicator`) -/

/-- The counters and cells of the `Replicator` struct that the claims are
about: `next_frame_no`, `last_sent_frame_no`, the value currently held by the
`last_committed_frame_no` watch channel, `page_size`,
`commits_in_current_generation`, and the current generation id (the 128-bit
UUID is represented by its numeric value). -/
structure RState where
  nextFrameNo : Nat
  lastSentFrameNo : Nat
  lastCommittedFrameNo : Except Nat Nat
  pageSize : Nat
  generation : Nat
  commitsInCurrentGeneration : Nat
deriving Repr, DecidableEq

/-- `Replicator::UNSET_PAGE_SIZE = usize::MAX` (64-bit). -/
def UNSET_PAGE_SIZE : Nat := 2 ^ 64 - 1

/-- Modulus of the `u32` counters. -/
def u32Mod : Nat := 2 ^ 32

/-- The state `Replicator::create` starts from: `next_frame_no = 1`,
`last_sent_frame_no = 0`, watch channel initialised with `Ok(0)`,
`page_size = UNSET_PAGE_SIZE`, zero commits. -/
def initialReplicatorState : RState :=
  { nextFrameNo := 1
    lastSentFrameNo := 0
    lastCommittedFrameNo := Except.ok 0
    pageSize := UNSET_PAGE_SIZE
    generation := 0
    commitsInCurrentGeneration := 0 }

/-- `Replicator::set_page_size`: errors if a different non-sentinel value is
already set, otherwise stores the new value. -/
def set_page_size (cur ps : Nat) : Except Nat Nat :=
  if cur ≠ UNSET_PAGE_SIZE ∧ cur ≠ ps then Except.error 1 else Except.ok ps

/-- `set_page_size` acting on the whole replicator state; on error the state
is left untouched (the source returns before assigning). -/
def state_set_page_size (s : RState) (ps : Nat) : Except Nat RState :=
  match set_page_size s.pageSize ps with
  | Except.ok v => Except.ok { s with pageSize := v }
  | Except.error e => Except.error e

/-- `Replicator::reset_frames(frame_no)`: stores `frame_no + 1` into
`next_frame_no` and `min last_sent frame_no` into `last_sent_frame_no`
(both `u32` stores). -/
def reset_frames (s : RState) (frameNo : Nat) : RState :=
  { s with
    nextFrameNo := (frameNo + 1) % u32Mod
    lastSentFrameNo := min s.lastSentFrameNo frameNo }

/-- `Replicator::submit_frames(frame_count)`: `fetch_add` on `next_frame_no`
(wrapping `u32` addition).  The flush trigger it may fire is modelled by the
separate flush operation of `ROp`. -/
def submit_frames (s : RState) (frameCount : Nat) : RState :=
  { s with nextFrameNo := (s.nextFrameNo + frameCount) % u32Mod }

/-- `Replicator::set_generation(generation)`: swaps the generation cell,
zeroes `commits_in_current_generation` and calls `reset_frames(0)`. -/
def set_generation (s : RState) (generation : Nat) : RState :=
  reset_frames
    { s with generation := generation, commitsInCurrentGeneration := 0 } 0

/-- `Replicator::new_generation()`: `set_generation` on a freshly generated
id. -/
def new_generation (s : RState) (freshId : Nat) : RState :=
  set_generation s freshId

/-- `Replicator::rollback_to_frame(last_valid_frame)` is exactly
`reset_frames`. -/
def rollback_to_frame (s : RState) (lastValidFrame : Nat) : RState :=
  reset_frames s lastValidFrame

/-! ## The flush loop's counter updates and sequential traces -/

/-- One façade/pipeline operation touching the three frame counters:
`submit_frames n`, `reset_frames f` (reached from `rollback_to_frame`,
`register_last_valid_frame` and `set_generation`), a successful flush step
(swap `last_sent_frame_no ← next_frame_no - 1`, publish
`Ok(next_frame_no - 1)`), and a failed flush step (same swap, publish
`Err`). -/
inductive ROp where
  | submit (n : Nat)
  | reset (frameNo : Nat)
  | flushOk
  | flushErr (code : Nat)
deriving Repr, DecidableEq

/-- Effect of one operation on the replicator state; mirrors the bodies of
`submit_frames`, `reset_frames` and the backup task loop in
`Replicator::create`. -/
def stepOp (s : RState) : ROp → RState
  | ROp.submit n => submit_frames s n
  | ROp.reset f => reset_frames s f
  | ROp.flushOk =>
    { s with
      lastSentFrameNo := s.nextFrameNo - 1
      lastCommittedFrameNo := Except.ok (s.nextFrameNo - 1) }
  | ROp.flushErr c =>
    { s with
      lastSentFrameNo := s.nextFrameNo - 1
      lastCommittedFrameNo := Except.error c }

/-- Run a sequential trace of operations. -/
def runOps (s : RState) (ops : List ROp) : RState :=
  List.foldl stepOp s ops

/-- The spec's chain of inequalities
`last_committed_frame_no ≤ last_sent_frame_no ≤ next_frame_no − 1`
(the committed part is read off the watch channel when it holds `Ok`). -/
def chainInv (s : RState) : Bool :=
  (match s.lastCommittedFrameNo with
   | Except.ok k => decide (k ≤ s.lastSentFrameNo)
   | Except.error _ => true)
  && decide (s.lastSentFrameNo + 1 ≤ s.nextFrameNo)

/-- Side conditions under which one operation is invariant-preserving:
no `u32` overflow, and resets not dipping below the committed frontier. -/
def opOk (s : RState) : ROp → Bool
  | ROp.submit n => decide (s.nextFrameNo + n < u32Mod)
  | ROp.reset f =>
    decide (f + 1 < u32Mod)
    && (match s.lastCommittedFrameNo with
        | Except.ok k => decide (k ≤ f)
        | Except.error _ => true)
  | ROp.flushOk => true
  | ROp.flushErr _ => true

/-- All operations of a trace satisfy their side conditions, evaluated on the
intermediate states. -/
def opsOk (s : RState) : List ROp → Bool
  | [] => true
  | op :: rest => opOk s op && opsOk (stepOp s op) rest

/-! ## Object keys: formatting and parsing

Keys are modelled as lists of character codes.  Relevant codes:
`43 = '+'`, `45 = '-'`, `46 = '.'`, `47 = '/'`, `48`..`57 = '0'..'9'`,
lowercase letters from `97 = 'a'`. -/

/-- Character-code strings. -/
abbrev Str := List Nat

/-- Most-significant-first base-10 digits of `n`, padded/truncated to width
`w`.  For `n < 10 ^ w` this is exactly Rust's `{:012}`-style zero-padded
rendering (the replicator only formats `u32` values with `w = 12`, so the
truncation is never exercised). -/
def digitsMSB : Nat → Nat → List Nat
  | 0, _ => []
  | w + 1, n => n / 10 ^ w :: digitsMSB w (n % 10 ^ w)

/-- Zero-padded decimal rendering of `n` at width `w`, as character codes. -/
def natStrPad (w n : Nat) : Str :=
  (digitsMSB w n).map (fun d => d + 48)

/-- Key written by `FlushManager::flush` for the batch starting at `start`:
`format!("{}-{}/{:012}", db_name, generation, start)`. -/
def flushBatchKey (dbName generation : Str) (start : Nat) : Str :=
  dbName ++ 45 :: generation ++ 47 :: natStrPad 12 start

/-- Key (outbox message) written by `WalCopier::flush` for the batch
`[start, endFrame)`:
`format!("{}-{}/{:012}-{:012}", db_name, generation, start, end - 1)`. -/
def walBatchKey (dbName generation : Str) (start endFrame : Nat) : Str :=
  dbName ++ 45 :: generation ++ 47 ::
    (natStrPad 12 start ++ 45 :: natStrPad 12 (endFrame - 1))

/-- The `.meta` key written by `WalCopier::flush`:
`format!("{}-{}/.meta", db_name, generation)`. -/
def walMetaKey (dbName generation : Str) : Str :=
  dbName ++ 45 :: generation ++ 47 :: [46, 109, 101, 116, 97]

/-- A key whose last five characters are `.meta`. -/
def IsMetaKey (key : Str) : Prop :=
  key.reverse.take 5 = [97, 116, 101, 109, 46]

instance (key : Str) : Decidable (IsMetaKey key) := by
  unfold IsMetaKey; infer_instance

/-- Payload of the `.meta` object: `page_size` as big-endian `u32` followed
by the WAL header checksum as big-endian `u64` (12 bytes). -/
def walMetaContent (pageSize crc : Nat) : List Nat :=
  (List.range 4).map (fun i => pageSize / 256 ^ (3 - i) % 256) ++
    (List.range 8).map (fun i => crc / 256 ^ (7 - i) % 256)

/-- Is `c` the code of an ASCII decimal digit? -/
def isDigitCode (c : Nat) : Bool := decide (48 ≤ c) && decide (c ≤ 57)

/-- Strip the optional leading `+` sign accepted by Rust's integer parser. -/
def stripPlus : Str → Str
  | c :: rest => if c = 43 then rest else c :: rest
  | [] => []

/-- Rust's `str::parse::<u32>`: an optional leading `+`, then one or more
decimal digits, value below `2 ^ 32`. -/
def parseU32 (s : Str) : Option Nat :=
  let t := stripPlus s
  if t.isEmpty then none
  else if t.all isDigitCode then
    let v := t.foldl (fun a c => a * 10 + (c - 48)) 0
    if v < 2 ^ 32 then some v else none
  else none

/-- `Replicator::parse_frame_page_crc`: take the part of the key after the
last `/` (via `rfind`), parse it as `u32`; `None` if there is no `/` or the
suffix does not parse. -/
def parse_frame_page_crc (key : Str) : Option Nat :=
  if (47 : Nat) ∈ key then
    parseU32 ((key.reverse.takeWhile (fun c => c != 47)).reverse)
  else none

/-! ## The two flush paths -/

/-- Batch start frames produced by
`frames.step_by(max_frames_per_batch)` over `[start, endF)`, with an explicit
fuel argument (`endF - start` steps suffice since the stride is positive). -/
def batchStartsAux : Nat → Nat → Nat → Nat → List Nat
  | 0, _, _, _ => []
  | fuel + 1, start, endF, stride =>
    if start < endF ∧ 0 < stride then
      start :: batchStartsAux fuel (start + stride) endF stride
    else []

/-- Start frames of the batches covering `[start, endF)`. -/
def batchStarts (start endF stride : Nat) : List Nat :=
  batchStartsAux (endF - start) start endF stride

/-- `FlushManager::flush(frames)` (replicator.rs): on an empty range returns
`Ok(frames.start - 1)` at once; otherwise requires the WAL file, then uploads
one object per sub-range of at most `max_frames_per_batch` frames, keyed
`"{db_name}-{generation}/{start:012}"`, and returns `Ok(frames.end - 1)`.
The result carries the put-object keys in upload order.  No `.meta` object
appears anywhere in this function. -/
def FlushManager_flush (dbName generation : Str) (maxFramesPerBatch : Nat)
    (walPresent : Bool) (start endF : Nat) : Except Nat (Nat × List Str) :=
  if endF ≤ start then Except.ok (start - 1, [])
  else if !walPresent then Except.error 2
  else
    Except.ok (endF - 1,
      (batchStarts start endF maxFramesPerBatch).map
        (flushBatchKey dbName generation))

/-- `WalCopier::flush(frames)` (backup.rs): on an empty range returns
`Ok(frames.start - 1)`; otherwise requires the WAL file; if
`frames.start == 1` it first writes the 12-byte `.meta` object for the
generation, then writes one object per sub-range, keyed
`"{db_name}-{generation}/{start:012}-{end-1:012}"`, returning
`Ok(frames.end - 1)`.  The result carries the emitted keys in order. -/
def WalCopier_flush (dbName generation : Str) (maxFramesPerBatch : Nat)
    (walPresent : Bool) (start endF : Nat) : Except Nat (Nat × List Str) :=
  if endF ≤ start then Except.ok (start - 1, [])
  else if !walPresent then Except.error 2
  else
    let metaKeys := if start = 1 then [walMetaKey dbName generation] else []
    Except.ok (endF - 1,
      metaKeys ++
        (batchStarts start endF maxFramesPerBatch).map (fun s0 =>
          walBatchKey dbName generation s0 (min (s0 + maxFramesPerBatch) endF)))

/-! ## Restore planner (`Replicator::restore_from`) -/

/-- `RestoreAction` (replicator.rs). -/
inductive RestoreAction where
  | none
  | snapshotMainDbFile
  | reuseGeneration (generation : Nat)
deriving Repr, DecidableEq

/-- File-system / object-store effects performed by the tail of
`restore_from` once it decides to materialise the remote generation. -/
inductive RestoreEff where
  | renameLocalDb
  | createLocalDb
  | writeMainDb
  | removeWalFile
  | removeShmFile
  | applyBatch (startFrame : Nat)
deriving Repr, DecidableEq

/-- Environment `restore_from` runs against: the local database header (the
2-byte page-size field at offset 16 and the change counter at offset 24) if
the file exists, the remote `.changecounter`, the remote `.consistent` triple
if present, the local WAL header (page size and frame count) if present,
whether the remote `db.db`/`db.gz` object exists, and the listed object keys
under the generation.  Change counters are `[u8; 4]` in the source; Rust
compares such arrays lexicographically, which coincides with the numeric
order of their big-endian values, so they are carried as `Nat`. -/
structure RestoreEnv where
  localDb : Option (Nat × Nat)
  remoteChangeCounter : Nat
  consistent : Option (Nat × Nat × Nat)
  localWal : Option (Nat × Nat)
  mainDbObjectPresent : Bool
  remoteKeys : List Str
deriving Repr

/-- `Replicator::read_page_size`: the big-endian `u16` at offset 16; the
stored value `1` denotes a page size of 65536. -/
def read_page_size (stored : Nat) : Nat :=
  if stored = 1 then 65536 else stored

/-- `Replicator::get_last_consistent_frame`: the `.consistent` object's
`(page_size, last_frame, checksum)`, or `(0, 0, 0)` when absent. -/
def get_last_consistent_frame (c : Option (Nat × Nat × Nat)) :
    Nat × Nat × Nat :=
  c.getD (0, 0, 0)

/-- `Replicator::get_local_wal_page_count`: 0 when the WAL is absent; when
present, adopt its page size via `set_page_size` (returning 0 and leaving the
state alone if that fails) and return its frame count. -/
def get_local_wal_page_count (s : RState) :
    Option (Nat × Nat) → RState × Nat
  | Option.none => (s, 0)
  | some (ps, frameCount) =>
    match state_set_page_size s ps with
    | Except.ok s1 => (s1, frameCount)
    | Except.error _ => (s, 0)

/-- The WAL-application loop of `restore_from` at object granularity: keys
that do not parse are skipped; a parsed start frame beyond
`last_consistent_frame` stops the scan; every other object is downloaded and
its frames applied (`applied_wal_frame` becomes true).  Returns the effect
list and the final `applied_wal_frame` flag. -/
def restoreApplyLoop (lastConsistentFrame : Nat) :
    List Str → List RestoreEff × Bool
  | [] => ([], false)
  | key :: rest =>
    match parse_frame_page_crc key with
    | Option.none => restoreApplyLoop lastConsistentFrame rest
    | some frameNo =>
      if lastConsistentFrame < frameNo then ([], false)
      else
        let tail := restoreApplyLoop lastConsistentFrame rest
        (RestoreEff.applyBatch frameNo :: tail.1, true)

/-- Tail of `restore_from` past the decision tree: rename the local file to
`*.bottomless.backup`, create a fresh one, stream the remote main-db object
into it when present, delete the `-wal`/`-shm` sidecars, then apply remote
WAL batches; the result is `SnapshotMainDbFile` if any WAL object was
applied, else `None`. -/
def restoreMainAndWal (s : RState) (env : RestoreEnv)
    (lastConsistentFrame : Nat) :
    Except Nat (RestoreAction × List RestoreEff × RState) :=
  let effs0 := RestoreEff.renameLocalDb :: RestoreEff.createLocalDb ::
    ((if env.mainDbObjectPresent then [RestoreEff.writeMainDb] else []) ++
      [RestoreEff.removeWalFile, RestoreEff.removeShmFile])
  let la := restoreApplyLoop lastConsistentFrame env.remoteKeys
  Except.ok
    ((if la.2 then RestoreAction.snapshotMainDbFile else RestoreAction.none),
      effs0 ++ la.1, s)

/-- `Replicator::restore_from(generation)`: read the local header (adopting
the interpreted page size), fetch the remote change counter and `.consistent`
triple (adopting its page size when non-zero), count local WAL pages, then
branch on the change-counter and WAL-length comparisons exactly as the
source's nested `match` does.  Returns the action, the effect trace, and the
final state. -/
def restore_from (s : RState) (env : RestoreEnv) (generation : Nat) :
    Except Nat (RestoreAction × List RestoreEff × RState) :=
  let step1 : Except Nat (RState × Nat) :=
    match env.localDb with
    | some (stored, counter) =>
      match state_set_page_size s (read_page_size stored) with
      | Except.ok s1 => Except.ok (s1, counter)
      | Except.error e => Except.error e
    | Option.none => Except.ok (s, 0)
  match step1 with
  | Except.error e => Except.error e
  | Except.ok (s1, localCounter) =>
    let rc := get_last_consistent_frame env.consistent
    let remotePageSize := rc.1
    let lastConsistentFrame := rc.2.1
    match
      (if remotePageSize ≠ 0 then state_set_page_size s1 remotePageSize
       else Except.ok s1) with
    | Except.error e => Except.error e
    | Except.ok s2 =>
      let wp := get_local_wal_page_count s2 env.localWal
      let s3 := wp.1
      let walPages := wp.2
      if localCounter = env.remoteChangeCounter then
        if walPages = lastConsistentFrame then
          Except.ok (RestoreAction.reuseGeneration generation, [],
            reset_frames s3 (walPages + 1))
        else if lastConsistentFrame < walPages then
          Except.ok (RestoreAction.snapshotMainDbFile, [], s3)
        else restoreMainAndWal s3 env lastConsistentFrame
      else if env.remoteChangeCounter < localCounter then
        Except.ok (RestoreAction.snapshotMainDbFile, [], s3)
      else restoreMainAndWal s3 env lastConsistentFrame

/-! ## `Replicator::wait_until_committed` -/

/-- `wait_until_committed(frame_no)` as a function of the successive values
it observes on the `last_committed_frame_no` watch channel: an `Ok` value
at or above `frame_no` is returned; a smaller `Ok` suspends until the next
value; an `Err` is returned as an error at once.  `none` means the call is
still suspended after the listed observations. -/
def wait_until_committed (frameNo : Nat) :
    List (Except Nat Nat) → Option (Except Nat Nat)
  | [] => Option.none
  | Except.ok k :: rest =>
    if frameNo ≤ k then some (Except.ok k)
    else wait_until_committed frameNo rest
  | Except.error e :: _ => some (Except.error e)

/-! ## Generation clock (`Replicator::generate_generation`) -/

/-- Millisecond timestamp embedded by `generate_generation`: the wall clock
`(seconds, nanos)` is inverted to `(253370761200 - seconds,
999999999 - nanos)` and `uuid::Timestamp::from_unix` \/ `Uuid::new_v7`
turn that into `seconds * 1000 + nanos / 1_000_000` milliseconds. -/
def generation_millis (seconds nanos : Nat) : Nat :=
  (253370761200 - seconds) * 1000 + (999999999 - nanos) / 1000000

/-- The 128-bit value of a version-7 UUID: 48 bits of millisecond timestamp,
the version nibble `0111`, 12 random bits, the variant bits `10`, 62 random
bits. -/
def uuid_v7_value (millis randA randB : Nat) : Nat :=
  millis * 2 ^ 80 + 7 * 2 ^ 76 + randA * 2 ^ 64 + 2 * 2 ^ 62 + randB

/-- `Replicator::generate_generation` at wall-clock `(seconds, nanos)` with
the given random field values. -/
def generate_generation (seconds nanos randA randB : Nat) : Nat :=
  uuid_v7_value (generation_millis seconds nanos) randA randB

/-- Most-significant-first base-16 digits of `n` at width `w`. -/
def hexMSB : Nat → Nat → List Nat
  | 0, _ => []
  | w + 1, n => n / 16 ^ w :: hexMSB w (n % 16 ^ w)

/-- Code of the lowercase hex digit for `d < 16`. -/
def hexDigitCode (d : Nat) : Nat := if d < 10 then 48 + d else 87 + d

/-- Width-`w` lowercase hex rendering of `n`, as character codes. -/
def hexStr (w n : Nat) : Str := (hexMSB w n).map hexDigitCode

/-- The hyphenated textual form of a 128-bit UUID value: the 32 hex digits in
8-4-4-4-12 groups separated by `-` (code 45). -/
def uuidStr (n : Nat) : Str :=
  hexStr 8 (n / 16 ^ 24) ++ 45 ::
    (hexStr 4 (n / 16 ^ 20 % 16 ^ 4) ++ 45 ::
      (hexStr 4 (n / 16 ^ 16 % 16 ^ 4) ++ 45 ::
        (hexStr 4 (n / 16 ^ 12 % 16 ^ 4) ++ 45 ::
          hexStr 12 (n % 16 ^ 12))))

/-- Strict lexicographic order on character-code strings (the order `&str`
and S3 keys are compared in). -/
def lexLt : Str → Str → Bool
  | _, [] => false
  | [], _ :: _ => true
  | a :: as, b :: bs => if a < b then true else if a = b then lexLt as bs else false

/-! ## Concrete inputs used to evaluate the model -/

/-- A restore environment whose local database and remote generation agree:
equal change counters (7), `.consistent` last frame 5, local WAL of 5 frames,
page size 4096 everywhere. -/
def reuseEnv : RestoreEnv :=
  { localDb := some (4096, 7)
    remoteChangeCounter := 7
    consistent := some (4096, 5, 999)
    localWal := some (4096, 5)
    mainDbObjectPresent := true
    remoteKeys := [] }

/-- A replicator state that has already committed frame 7. -/
def committedState : RState :=
  { initialReplicatorState with
    nextFrameNo := 9
    lastSentFrameNo := 8
    lastCommittedFrameNo := Except.ok 7 }

/-! ## Theorems -/

/-- C8: `set_page_size ps` succeeds (storing `ps`) whenever the current value
is the `UNSET_PAGE_SIZE` sentinel or already equals `ps`, and fails — leaving
the stored page size untouched — whenever a different non-sentinel value is
set. -/
theorem c8_set_page_size (cur ps : Nat) :
    ((cur = UNSET_PAGE_SIZE ∨ cur = ps) →
      set_page_size cur ps = Except.ok ps) ∧
    (cur ≠ UNSET_PAGE_SIZE → cur ≠ ps →
      set_page_size cur ps = Except.error 1 ∧
        ∀ s : RState, s.pageSize = cur →
          state_set_page_size s ps = Except.error 1) := by
  constructor
  · intro h
    unfold set_page_size
    rcases h with h | h <;> simp [h]
  · intro h1 h2
    have he : set_page_size cur ps = Except.error 1 := by
      unfold set_page_size
      exact if_pos ⟨h1, h2⟩
    refine ⟨he, ?_⟩
    intro s hs
    unfold state_set_page_size
    rw [hs, he]

/-- Witness for C8 at concrete inputs: setting 4096 over the sentinel
succeeds, setting 4096 over 512 fails. -/
theorem c8_set_page_size_w :
    set_page_size UNSET_PAGE_SIZE 4096 = Except.ok 4096 ∧
    set_page_size 512 4096 = Except.error 1 :=
  ⟨(c8_set_page_size UNSET_PAGE_SIZE 4096).1 (Or.inl rfl),
    ((c8_set_page_size 512 4096).2 (by decide) (by decide)).1⟩

/-- C4 (counterexample): after `set_generation` on a state whose
`last_committed_frame_no` watch channel holds `Ok(7)`, the claimed
conjunction fails — the channel still holds `Ok(7)`, not 0, because
`set_generation` only touches the generation cell, the commit counter and
the two frame counters. -/
theorem c4_counterexample :
    ¬ ((set_generation committedState 5).commitsInCurrentGeneration = 0 ∧
       (set_generation committedState 5).nextFrameNo = 1 ∧
       (set_generation committedState 5).lastSentFrameNo = 0 ∧
       (set_generation committedState 5).lastCommittedFrameNo =
         Except.ok 0) := by
  decide

/-- C4 (amended): after `set_generation(id)` (and hence `new_generation()`),
`commits_in_current_generation = 0`, `next_frame_no = 1`,
`last_sent_frame_no = 0` and the generation is the given id; the
`last_committed_frame_no` watch value is left unchanged (the façade holds
only the receiving end of the channel and cannot reset it). -/
theorem c4_set_generation_resets (s : RState) (g : Nat) :
    (set_generation s g).commitsInCurrentGeneration = 0 ∧
    (set_generation s g).nextFrameNo = 1 ∧
    (set_generation s g).lastSentFrameNo = 0 ∧
    (set_generation s g).generation = g ∧
    (set_generation s g).lastCommittedFrameNo = s.lastCommittedFrameNo := by
  refine ⟨rfl, ?_, ?_, rfl, rfl⟩
  · show (0 + 1) % u32Mod = 1
    decide
  · show min s.lastSentFrameNo 0 = 0
    exact Nat.min_zero _

/-- C1: `restore_from` in the reuse branch (equal change counters, local WAL
length equal to `last_consistent_frame = 5`) returns
`ReuseGeneration(generation)` but leaves `next_frame_no = 7 = wal_pages + 2`,
not `wal_pages + 1 = 6`: the source calls `reset_frames(wal_pages + 1)` and
`reset_frames(f)` stores `f + 1`. -/
theorem c1_reuse_generation_off_by_one :
    restore_from initialReplicatorState reuseEnv 42 =
      Except.ok (RestoreAction.reuseGeneration 42, [],
        { nextFrameNo := 7
          lastSentFrameNo := 0
          lastCommittedFrameNo := Except.ok 0
          pageSize := 4096
          generation := 0
          commitsInCurrentGeneration := 0 }) ∧
    (7 : Nat) ≠ 5 + 1 := by
  decide

/-- C5 (counterexample): the chain
`last_committed ≤ last_sent ≤ next_frame_no − 1` holds initially but is
violated by the sequential trace submit 5 frames, flush successfully
(committing frame 5), then `reset_frames 0` (what `set_generation` does):
afterwards `last_committed = 5 > last_sent = 0`. -/
theorem c5_counterexample :
    chainInv initialReplicatorState = true ∧
    chainInv (runOps initialReplicatorState
      [ROp.submit 5, ROp.flushOk, ROp.reset 0]) = false := by
  decide

/-- The Boolean chain invariant, read as a proposition. -/
lemma chainInv_eq_true_iff (s : RState) :
    chainInv s = true ↔
      ((∀ k, s.lastCommittedFrameNo = Except.ok k →
          k ≤ s.lastSentFrameNo) ∧
        s.lastSentFrameNo + 1 ≤ s.nextFrameNo) := by
  cases h : s.lastCommittedFrameNo with
  | ok k => simp [chainInv, h]
  | error e => simp [chainInv, h]

/-- The side conditions of an operation, read as a proposition. -/
lemma opOk_eq_true_iff (s : RState) (op : ROp) :
    opOk s op = true ↔
      (match op with
       | ROp.submit n => s.nextFrameNo + n < u32Mod
       | ROp.reset f =>
         f + 1 < u32Mod ∧
           ∀ k, s.lastCommittedFrameNo = Except.ok k → k ≤ f
       | ROp.flushOk => True
       | ROp.flushErr _ => True) := by
  cases op with
  | submit n => simp [opOk]
  | reset f =>
    cases h : s.lastCommittedFrameNo with
    | ok k => simp [opOk, h]
    | error e => simp [opOk, h]
  | flushOk => simp [opOk]
  | flushErr c => simp [opOk]

/-- One well-conditioned operation preserves the chain invariant. -/
lemma chainInv_step (s : RState) (op : ROp) (hs : chainInv s = true)
    (hop : opOk s op = true) : chainInv (stepOp s op) = true := by
  rw [chainInv_eq_true_iff] at hs
  rw [opOk_eq_true_iff] at hop
  rw [chainInv_eq_true_iff]
  cases op with
  | submit n =>
    simp only [stepOp, submit_frames] at *
    refine ⟨fun k hk => hs.1 k hk, ?_⟩
    rw [Nat.mod_eq_of_lt hop]
    omega
  | reset f =>
    simp only [stepOp, reset_frames] at *
    obtain ⟨hf, hcm⟩ := hop
    refine ⟨?_, ?_⟩
    · intro k hk
      exact le_min (hs.1 k hk) (hcm k hk)
    · rw [Nat.mod_eq_of_lt hf]
      omega
  | flushOk =>
    simp only [stepOp] at *
    refine ⟨?_, ?_⟩
    · intro k hk
      cases hk
      exact Nat.le_refl _
    · omega
  | flushErr c =>
    simp only [stepOp] at *
    refine ⟨?_, ?_⟩
    · intro k hk
      cases hk
    · omega

/-- C5 (amended): the chain
`last_committed_frame_no ≤ last_sent_frame_no ≤ next_frame_no − 1` is
preserved along every sequential trace of `submit_frames`, flush steps
(successful or failed) and `reset_frames`, provided the `u32` counters do not
overflow and every reset's target frame is at least the committed frontier;
`reset_frames` below the committed frontier (as `set_generation` performs
after a commit) breaks the chain. -/
theorem c5_chain_preserved (s : RState) (ops : List ROp)
    (hs : chainInv s = true) (hok : opsOk s ops = true) :
    chainInv (runOps s ops) = true := by
  induction ops generalizing s with
  | nil => exact hs
  | cons op rest ih =>
    simp only [opsOk, Bool.and_eq_true] at hok
    have h1 : chainInv (stepOp s op) = true := chainInv_step s op hs hok.1
    simpa [runOps, List.foldl] using ih (stepOp s op) h1 hok.2

/-- Witness for C5 at a concrete trace: submit 3 frames, flush, reset to the
committed frame 3, submit one more; the chain invariant holds throughout. -/
theorem c5_chain_preserved_w :
    (chainInv initialReplicatorState = true ∧
      opsOk initialReplicatorState
        [ROp.submit 3, ROp.flushOk, ROp.reset 3, ROp.submit 1] = true) ∧
    chainInv (runOps initialReplicatorState
      [ROp.submit 3, ROp.flushOk, ROp.reset 3, ROp.submit 1]) = true :=
  ⟨⟨by decide, by decide⟩,
    c5_chain_preserved initialReplicatorState
      [ROp.submit 3, ROp.flushOk, ROp.reset 3, ROp.submit 1]
      (by decide) (by decide)⟩

/-- C7: over any sequence of values observed on the commit watch channel,
`wait_until_committed(frame_no)` returns `Ok(k)` only for an observed
(published) `Ok(k)` with `k ≥ frame_no`, and returns an error as soon as the
channel holds an `Err`. -/
theorem c7_wait_until_committed (frameNo : Nat)
    (obs : List (Except Nat Nat)) :
    (∀ k, wait_until_committed frameNo obs = some (Except.ok k) →
      frameNo ≤ k ∧ Except.ok k ∈ obs) ∧
    (∀ e rest, obs = Except.error e :: rest →
      wait_until_committed frameNo obs = some (Except.error e)) := by
  induction obs with
  | nil =>
    constructor
    · intro k h
      simp [wait_until_committed] at h
    · intro e rest h
      cases h
  | cons o rest ih =>
    constructor
    · intro k h
      cases o with
      | ok m =>
        by_cases hm : frameNo ≤ m
        · rw [wait_until_committed, if_pos hm] at h
          have hk : m = k := by
            injection h with h1
            injection h1
          subst hk
          exact ⟨hm, List.mem_cons_self _ _⟩
        · rw [wait_until_committed, if_neg hm] at h
          obtain ⟨h1, h2⟩ := ih.1 k h
          exact ⟨h1, List.mem_cons_of_mem _ h2⟩
      | error e =>
        rw [wait_until_committed] at h
        injection h with h1
        cases h1
    · intro e r h
      cases h
      rw [wait_until_committed]

/-- Witness for C7: observing `Ok 1` then `Ok 5` while waiting for frame 3
yields a committed frame at least 3 that was actually published. -/
theorem c7_wait_until_committed_w :
    3 ≤ 5 ∧ Except.ok 5 ∈ [Except.ok (ε := Nat) 1, Except.ok 5] :=
  (c7_wait_until_committed 3 [Except.ok 1, Except.ok 5]).1 5 (by decide)

/-- C6: when the remote `.consistent` object is absent,
`get_last_consistent_frame` yields `(0, 0, 0)`, and `restore_from` with equal
local and remote change counters and a non-empty local WAL returns
`SnapshotMainDbFile` with an empty effect trace — no WAL frame applied, no
rewrite of the local database file. -/
theorem c6_missing_consistent_snapshot (s : RState)
    (stored counter n generation : Nat) (keys : List Str) (dbObj : Bool)
    (hps : s.pageSize = UNSET_PAGE_SIZE) (hn : 0 < n) :
    get_last_consistent_frame Option.none = (0, 0, 0) ∧
    (restore_from s
        { localDb := some (stored, counter)
          remoteChangeCounter := counter
          consistent := Option.none
          localWal := some (read_page_size stored, n)
          mainDbObjectPresent := dbObj
          remoteKeys := keys } generation).map (fun r => (r.1, r.2.1)) =
      Except.ok (RestoreAction.snapshotMainDbFile, []) := by
  refine ⟨rfl, ?_⟩
  have h1 : state_set_page_size s (read_page_size stored) =
      Except.ok { s with pageSize := read_page_size stored } := by
    unfold state_set_page_size set_page_size
    rw [hps]
    simp
  have h2 : state_set_page_size { s with pageSize := read_page_size stored }
      (read_page_size stored) =
      Except.ok { s with pageSize := read_page_size stored } := by
    unfold state_set_page_size set_page_size
    simp
  have hn' : n ≠ 0 := by omega
  simp [restore_from, h1, h2, get_last_consistent_frame,
    get_local_wal_page_count, hn', hn, Except.map]

/-- Witness for C6 at concrete inputs: fresh replicator state, local header
page-size field 4096 and counter 7, remote counter 7, three local WAL pages,
no remote `.consistent`. -/
theorem c6_missing_consistent_snapshot_w :
    (initialReplicatorState.pageSize = UNSET_PAGE_SIZE ∧ (0 : Nat) < 3) ∧
    (get_last_consistent_frame Option.none = (0, 0, 0) ∧
      (restore_from initialReplicatorState
          { localDb := some (4096, 7)
            remoteChangeCounter := 7
            consistent := Option.none
            localWal := some (read_page_size 4096, 3)
            mainDbObjectPresent := true
            remoteKeys := [] } 9).map (fun r => (r.1, r.2.1)) =
        Except.ok (RestoreAction.snapshotMainDbFile, [])) :=
  ⟨⟨rfl, by decide⟩,
    c6_missing_consistent_snapshot initialReplicatorState 4096 7 3 9 [] true
      rfl (by decide)⟩

/-- C10: `read_page_size` interprets the stored 2-byte field `1` as 65536 and
any other value as itself, and `restore_from` adopts the interpreted value
via `set_page_size` before the change-counter comparison: when the adoption
conflicts with an already-set page size, `restore_from` fails outright, no
matter what the counters would have decided. -/
theorem c10_read_page_size_adopted (s : RState) (env : RestoreEnv)
    (generation stored counter : Nat)
    (hdb : env.localDb = some (stored, counter))
    (hcur : s.pageSize ≠ UNSET_PAGE_SIZE)
    (hconf : s.pageSize ≠ read_page_size stored) :
    read_page_size 1 = 65536 ∧
    (∀ v, v ≠ 1 → read_page_size v = v) ∧
    restore_from s env generation = Except.error 1 := by
  refine ⟨rfl, ?_, ?_⟩
  · intro v hv
    unfold read_page_size
    exact if_neg hv
  · have h1 : state_set_page_size s (read_page_size stored) =
        Except.error 1 := by
      unfold state_set_page_size set_page_size
      rw [if_pos ⟨hcur, hconf⟩]
    simp only [restore_from, hdb, h1]

/-- Witness for C10: state with page size 512 already set, stored header
field 1 (interpreted as 65536) — `restore_from` fails. -/
theorem c10_read_page_size_adopted_w :
    (({ initialReplicatorState with pageSize := 512 } : RState).pageSize ≠
        UNSET_PAGE_SIZE ∧
      ({ initialReplicatorState with pageSize := 512 } : RState).pageSize ≠
        read_page_size 1) ∧
    (read_page_size 1 = 65536 ∧
      (∀ v, v ≠ 1 → read_page_size v = v) ∧
      restore_from { initialReplicatorState with pageSize := 512 }
        { localDb := some (1, 9)
          remoteChangeCounter := 2
          consistent := Option.none
          localWal := Option.none
          mainDbObjectPresent := false
          remoteKeys := [] } 3 = Except.error 1) :=
  ⟨⟨by decide, by decide⟩,
    c10_read_page_size_adopted { initialReplicatorState with pageSize := 512 }
      { localDb := some (1, 9)
        remoteChangeCounter := 2
        consistent := Option.none
        localWal := Option.none
        mainDbObjectPresent := false
        remoteKeys := [] } 3 1 9 rfl (by decide) (by decide)⟩

/-- Length of the fixed-width digit rendering. -/
lemma digitsMSB_length (w : Nat) : ∀ n, (digitsMSB w n).length = w := by
  induction w with
  | zero => intro n; rfl
  | succ w ih => intro n; simp [digitsMSB, ih]

/-- Every digit of a value below `10 ^ w` is below 10. -/
lemma digitsMSB_lt_ten (w : Nat) :
    ∀ n, n < 10 ^ w → ∀ c ∈ digitsMSB w n, c < 10 := by
  induction w with
  | zero => intro n _ c hc; simp [digitsMSB] at hc
  | succ w ih =>
    intro n hn c hc
    have hp : 0 < 10 ^ w := Nat.pos_pow_of_pos w (by omega)
    simp only [digitsMSB] at hc
    rcases List.mem_cons.mp hc with hc | hc
    · subst hc
      have hm : n < 10 ^ w * 10 := by
        calc n < 10 ^ (w + 1) := hn
        _ = 10 ^ w * 10 := by ring
      exact Nat.div_lt_of_lt_mul hm
    · exact ih (n % 10 ^ w) (Nat.mod_lt _ hp) c hc

/-- Folding the decimal digits back into a value. -/
lemma foldl_digitsMSB (w : Nat) :
    ∀ a n, n < 10 ^ w →
      ((digitsMSB w n).map (fun d => d + 48)).foldl
        (fun x c => x * 10 + (c - 48)) a = a * 10 ^ w + n := by
  induction w with
  | zero =>
    intro a n hn
    have hz : n = 0 := by omega
    subst hz
    simp [digitsMSB]
  | succ w ih =>
    intro a n hn
    have hp : 0 < 10 ^ w := Nat.pos_pow_of_pos w (by omega)
    have hdm := Nat.div_add_mod n (10 ^ w)
    have hmod : n % 10 ^ w < 10 ^ w := Nat.mod_lt _ hp
    calc ((digitsMSB (w + 1) n).map (fun d => d + 48)).foldl
          (fun x c => x * 10 + (c - 48)) a
        = ((digitsMSB w (n % 10 ^ w)).map (fun d => d + 48)).foldl
            (fun x c => x * 10 + (c - 48))
            (a * 10 + (n / 10 ^ w + 48 - 48)) := by
          simp [digitsMSB]
      _ = (a * 10 + n / 10 ^ w) * 10 ^ w + n % 10 ^ w := by
          rw [ih (a * 10 + (n / 10 ^ w + 48 - 48)) (n % 10 ^ w) hmod]
          simp
      _ = a * (10 ^ w * 10) + (10 ^ w * (n / 10 ^ w) + n % 10 ^ w) := by
          ring
      _ = a * 10 ^ (w + 1) + n := by rw [hdm, pow_succ]

/-- Every character of the padded rendering of a value below `10 ^ w` is a
decimal digit. -/
lemma natStrPad_digits (w n : Nat) (h : n < 10 ^ w) :
    ∀ c ∈ natStrPad w n, isDigitCode c = true := by
  intro c hc
  simp only [natStrPad, List.mem_map] at hc
  obtain ⟨d, hd, rfl⟩ := hc
  have := digitsMSB_lt_ten w n h d hd
  simp [isDigitCode]
  omega

/-- Rust's `u32` parser inverts the width-12 zero-padded rendering on the
`u32` range. -/
lemma parseU32_natStrPad (n : Nat) (h : n < 2 ^ 32) :
    parseU32 (natStrPad 12 n) = some n := by
  have h12 : n < 10 ^ 12 := by omega
  have hcons : natStrPad 12 n =
      (n / 10 ^ 11 + 48) :: natStrPad 11 (n % 10 ^ 11) := rfl
  have hstrip : stripPlus (natStrPad 12 n) = natStrPad 12 n := by
    rw [hcons, stripPlus, if_neg (by omega)]
  have hne : (natStrPad 12 n).isEmpty = false := by rw [hcons]; rfl
  have hall : (natStrPad 12 n).all isDigitCode = true :=
    List.all_eq_true.mpr (natStrPad_digits 12 n h12)
  have hfold : (natStrPad 12 n).foldl (fun x c => x * 10 + (c - 48)) 0 = n := by
    have := foldl_digitsMSB 12 0 n h12
    simpa [natStrPad] using this
  simp only [parseU32, hstrip, hne, hall, hfold]
  simp
  omega

/-- `takeWhile` runs through a block that satisfies the predicate and stops
at the first failing element. -/
lemma takeWhile_all_append (p : Nat → Bool) :
    ∀ (l : List Nat) (x : Nat) (r : List Nat),
      (∀ c ∈ l, p c = true) → p x = false →
      (l ++ x :: r).takeWhile p = l := by
  intro l
  induction l with
  | nil =>
    intro x r _ hx
    simp [List.takeWhile, hx]
  | cons c cs ih =>
    intro x r hl hx
    have hc : p c = true := hl c (List.mem_cons_self _ _)
    simp only [List.cons_append, List.takeWhile, hc]
    show c :: List.takeWhile p (cs ++ x :: r) = c :: cs
    rw [ih x r (fun d hd => hl d (List.mem_cons_of_mem _ hd)) hx]

/-- The `rfind('/')`-based suffix extraction of `parse_frame_page_crc`:
on a key of the shape `{dbName}-{generation}/{tail}` with no `/` in
`dbName`, `generation` or `tail`, the parser sees exactly `tail`. -/
lemma parse_key_suffix (dbName generation tail : Str)
    (htail : ∀ c ∈ tail, c ≠ 47) :
    parse_frame_page_crc (dbName ++ 45 :: generation ++ 47 :: tail) =
      parseU32 tail := by
  unfold parse_frame_page_crc
  have hmem : (47 : Nat) ∈ dbName ++ 45 :: generation ++ 47 :: tail := by
    simp
  rw [if_pos hmem]
  have hrev : (dbName ++ 45 :: generation ++ 47 :: tail).reverse =
      tail.reverse ++ 47 :: (generation.reverse ++ 45 :: dbName.reverse) := by
    simp
  rw [hrev, takeWhile_all_append (fun c => c != 47) tail.reverse 47
    (generation.reverse ++ 45 :: dbName.reverse)
    (by
      intro c hc
      have hcn := htail c (List.mem_reverse.mp hc)
      simp [hcn])
    (by simp), List.reverse_reverse]

/-- C2 (counterexample): the two batch-writing paths do not share one key
form, and the restore planner's parser does not recover the start frame from
`WalCopier::flush`'s key: for db name `db`, generation `g` and the batch
`[1, 5)`, the written key `db-g/000000000001-000000000004` parses to `none`,
not `some 1`. -/
theorem c2_counterexample :
    parse_frame_page_crc (walBatchKey [100, 98] [103] 1 5) = Option.none ∧
    walBatchKey [100, 98] [103] 1 5 ≠ flushBatchKey [100, 98] [103] 1 := by
  decide

/-- C2 (amended): `FlushManager::flush` keys have the single form
`{db_name}-{generation}/{s:012}` and `parse_frame_page_crc` recovers exactly
`s` from them; `WalCopier::flush` keys carry the additional
`-{end-1:012}` range suffix, on which `parse_frame_page_crc` returns
`None`. -/
theorem c2_batch_key_forms (dbName generation : Str) (s e : Nat)
    (hs : s < 2 ^ 32) :
    parse_frame_page_crc (flushBatchKey dbName generation s) = some s ∧
    parse_frame_page_crc (walBatchKey dbName generation s e) =
      Option.none := by
  have hdigits : ∀ w n (c : Nat), c ∈ natStrPad w n → 48 ≤ c := by
    intro w n c hc
    simp only [natStrPad, List.mem_map] at hc
    obtain ⟨d, _, rfl⟩ := hc
    omega
  constructor
  · rw [flushBatchKey, parse_key_suffix dbName generation _
      (by
        intro c hc
        have := hdigits 12 s c hc
        omega)]
    exact parseU32_natStrPad s hs
  · rw [walBatchKey, parse_key_suffix dbName generation _
      (by
        intro c hc
        rcases List.mem_append.mp hc with hc | hc
        · have := hdigits 12 s c hc
          omega
        · rcases List.mem_cons.mp hc with rfl | hc
          · omega
          · have := hdigits 12 (e - 1) c hc
            omega)]
    have hcons : natStrPad 12 s ++ 45 :: natStrPad 12 (e - 1) =
        (s / 10 ^ 11 + 48) ::
          (natStrPad 11 (s % 10 ^ 11) ++ 45 :: natStrPad 12 (e - 1)) := rfl
    have hstrip : stripPlus (natStrPad 12 s ++ 45 :: natStrPad 12 (e - 1)) =
        natStrPad 12 s ++ 45 :: natStrPad 12 (e - 1) := by
      rw [hcons, stripPlus, if_neg (by omega)]
    have hne : (natStrPad 12 s ++ 45 :: natStrPad 12 (e - 1)).isEmpty =
        false := by
      rw [hcons]
      rfl
    have hall : (natStrPad 12 s ++ 45 :: natStrPad 12 (e - 1)).all
        isDigitCode = false := by
      cases hall0 : (natStrPad 12 s ++ 45 :: natStrPad 12 (e - 1)).all
        isDigitCode with
      | false => rfl
      | true =>
        exfalso
        have hmem45 : (45 : Nat) ∈
            natStrPad 12 s ++ 45 :: natStrPad 12 (e - 1) := by simp
        have := List.all_eq_true.mp hall0 45 hmem45
        simp [isDigitCode] at this
    simp only [parseU32, hstrip, hne, hall]
    simp

/-- Witness for C2 at concrete inputs: db name `db`, generation `g`,
sub-range `[7, 11)`. -/
theorem c2_batch_key_forms_w :
    (7 : Nat) < 2 ^ 32 ∧
    (parse_frame_page_crc (flushBatchKey [100, 98] [103] 7) = some 7 ∧
      parse_frame_page_crc (walBatchKey [100, 98] [103] 7 11) =
        Option.none) :=
  ⟨by decide, c2_batch_key_forms [100, 98] [103] 7 11 (by decide)⟩

/-- The fixed-width digit rendering ends in the units digit. -/
lemma digitsMSB_split (w : Nat) :
    ∀ n, ∃ t, digitsMSB (w + 2) n = t ++ [n % 10] := by
  induction w with
  | zero =>
    intro n
    refine ⟨[n / 10], ?_⟩
    show digitsMSB 2 n = [n / 10] ++ [n % 10]
    simp [digitsMSB]
  | succ w ih =>
    intro n
    obtain ⟨t, ht⟩ := ih (n % 10 ^ (w + 2))
    refine ⟨n / 10 ^ (w + 2) :: t, ?_⟩
    have hd : (10 : Nat) ∣ 10 ^ (w + 2) := dvd_pow_self 10 (by omega)
    have hmm : n % 10 ^ (w + 2) % 10 = n % 10 := Nat.mod_mod_of_dvd n hd
    have hstep : digitsMSB (w + 1 + 2) n =
        n / 10 ^ (w + 2) :: digitsMSB (w + 2) (n % 10 ^ (w + 2)) := rfl
    rw [hstep, ht, hmm, List.cons_append]

/-- The width-12 zero-padded rendering ends in the units digit's code. -/
lemma natStrPad_split (n : Nat) :
    ∃ t, natStrPad 12 n = t ++ [n % 10 + 48] := by
  obtain ⟨t, ht⟩ := digitsMSB_split 10 n
  refine ⟨t.map (fun d => d + 48), ?_⟩
  rw [natStrPad, ht]
  simp

/-- No key ending in a width-12 decimal rendering is a `.meta` key. -/
lemma not_meta_key_append (pre : Str) (n : Nat) :
    ¬ IsMetaKey (pre ++ natStrPad 12 n) := by
  intro h
  obtain ⟨t, ht⟩ := natStrPad_split n
  unfold IsMetaKey at h
  rw [ht, ← List.append_assoc, List.reverse_append,
    List.reverse_singleton] at h
  have hh : some (n % 10 + 48) = some (97 : Nat) := congrArg List.head? h
  have := Option.some.inj hh
  omega

/-- C3 (counterexample): a flush of frames `[1, 4)` through
`FlushManager::flush` (the replicator's S3 pipeline) uploads exactly one
batch object and no `.meta` object at all, although the range starts at
frame 1. -/
theorem c3_counterexample :
    FlushManager_flush [100, 98] [103] 64 true 1 4 =
      Except.ok (3, [flushBatchKey [100, 98] [103] 1]) ∧
    ¬ IsMetaKey (flushBatchKey [100, 98] [103] 1) := by
  decide

/-- C3 (amended): it is `WalCopier::flush` (backup.rs) that writes the
12-byte `.meta` object — big-endian `page_size : u32` then the WAL header
checksum `u64` — before any batch whenever its range starts at frame 1;
`FlushManager::flush` (replicator.rs) never writes a `.meta` object. -/
theorem c3_meta_first_walcopier (dbName generation : Str)
    (mb ps crc endF : Nat) (h1 : 1 < endF) :
    (∃ batchKeys,
      WalCopier_flush dbName generation mb true 1 endF =
        Except.ok (endF - 1, walMetaKey dbName generation :: batchKeys) ∧
      ∀ k ∈ batchKeys, ¬ IsMetaKey k) ∧
    (walMetaContent ps crc).length = 12 ∧
    (∀ start endF2 r,
      FlushManager_flush dbName generation mb true start endF2 =
        Except.ok r → ∀ k ∈ r.2, ¬ IsMetaKey k) := by
  refine ⟨?_, by simp [walMetaContent], ?_⟩
  · refine ⟨(batchStarts 1 endF mb).map (fun s0 =>
      walBatchKey dbName generation s0 (min (s0 + mb) endF)), ?_, ?_⟩
    · unfold WalCopier_flush
      rw [if_neg (by omega)]
      simp
    · intro k hk
      simp only [List.mem_map] at hk
      obtain ⟨s0, _, rfl⟩ := hk
      have hkey : walBatchKey dbName generation s0 (min (s0 + mb) endF) =
          (dbName ++ 45 :: generation ++ 47 :: natStrPad 12 s0 ++ [45]) ++
            natStrPad 12 (min (s0 + mb) endF - 1) := by
        simp [walBatchKey]
      rw [hkey]
      exact not_meta_key_append _ _
  · intro start endF2 r hr k hk
    unfold FlushManager_flush at hr
    by_cases hse : endF2 ≤ start
    · rw [if_pos hse] at hr
      cases Except.ok.inj hr
      simp at hk
    · rw [if_neg hse] at hr
      simp only [Bool.not_true, Bool.false_eq_true, if_false] at hr
      cases Except.ok.inj hr
      simp only [List.mem_map] at hk
      obtain ⟨s0, _, rfl⟩ := hk
      have hkey : flushBatchKey dbName generation s0 =
          (dbName ++ 45 :: generation ++ [47]) ++ natStrPad 12 s0 := by
        simp [flushBatchKey]
      rw [hkey]
      exact not_meta_key_append _ _

/-- Witness for C3 at concrete inputs: db name `db`, generation `g`, range
`[1, 4)`, page size 4096, checksum 9. -/
theorem c3_meta_first_walcopier_w :
    (1 : Nat) < 4 ∧
    ((∃ batchKeys,
        WalCopier_flush [100, 98] [103] 64 true 1 4 =
          Except.ok (4 - 1, walMetaKey [100, 98] [103] :: batchKeys) ∧
        ∀ k ∈ batchKeys, ¬ IsMetaKey k) ∧
      (walMetaContent 4096 9).length = 12 ∧
      (∀ start endF2 r,
        FlushManager_flush [100, 98] [103] 64 true start endF2 =
          Except.ok r → ∀ k ∈ r.2, ¬ IsMetaKey k)) :=
  ⟨by decide, c3_meta_first_walcopier [100, 98] [103] 64 4096 9 4 (by decide)⟩

/-- `lexLt` is stable under appending behind a common prefix. -/
lemma lexLt_append_same (p : Str) {x y : Str} (h : lexLt x y = true) :
    lexLt (p ++ x) (p ++ y) = true := by
  induction p with
  | nil => simpa using h
  | cons c cs ih =>
    simp only [List.cons_append, lexLt, if_neg (Nat.lt_irrefl c), if_pos rfl]
    exact ih

/-- A strict lexicographic difference between equal-length blocks decides the
comparison whatever follows. -/
lemma lexLt_append_blocks :
    ∀ (a b x y : Str), a.length = b.length → lexLt a b = true →
      lexLt (a ++ x) (b ++ y) = true := by
  intro a
  induction a with
  | nil =>
    intro b x y hlen h
    cases b with
    | nil => simp [lexLt] at h
    | cons d ds => cases hlen
  | cons c cs ih =>
    intro b x y hlen h
    cases b with
    | nil => cases hlen
    | cons d ds =>
      by_cases hcd : c < d
      · simp [lexLt, hcd]
      · by_cases hce : c = d
        · subst hce
          simp only [lexLt, if_neg hcd, if_pos rfl] at h
          simp only [List.cons_append, lexLt, if_neg hcd, if_pos rfl]
          exact ih ds x y (by simpa using hlen) h
        · simp [lexLt, hcd, hce] at h

/-- The hex digit codes are ordered like the digits. -/
lemma hexDigitCode_lt {d1 d2 : Nat} (h : d1 < d2) (h2 : d2 < 16) :
    hexDigitCode d1 < hexDigitCode d2 := by
  unfold hexDigitCode
  split <;> split <;> omega

/-- Width of the raw hex digit list. -/
lemma hexMSB_length (w : Nat) : ∀ n, (hexMSB w n).length = w := by
  induction w with
  | zero => intro n; rfl
  | succ w ih => intro n; simp [hexMSB, ih]

/-- Width of the hex rendering. -/
lemma hexStr_length (w n : Nat) : (hexStr w n).length = w := by
  simp [hexStr, hexMSB_length]

/-- Fixed-width hex renderings compare lexicographically like the values. -/
lemma lexLt_hexStr (w : Nat) :
    ∀ n1 n2, n1 < n2 → n2 < 16 ^ w →
      lexLt (hexStr w n1) (hexStr w n2) = true := by
  induction w with
  | zero =>
    intro n1 n2 h hb
    omega
  | succ w ih =>
    intro n1 n2 h hb
    have hp : 0 < 16 ^ w := Nat.pos_pow_of_pos w (by omega)
    have hd2 : n2 / 16 ^ w < 16 := by
      have : n2 < 16 ^ w * 16 := by
        calc n2 < 16 ^ (w + 1) := hb
        _ = 16 ^ w * 16 := by ring
      exact Nat.div_lt_of_lt_mul this
    have hdle : n1 / 16 ^ w ≤ n2 / 16 ^ w := Nat.div_le_div_right h.le
    have hopen : ∀ m, hexStr (w + 1) m =
        hexDigitCode (m / 16 ^ w) :: hexStr w (m % 16 ^ w) := fun m => rfl
    rw [hopen, hopen]
    rcases Nat.lt_or_ge (n1 / 16 ^ w) (n2 / 16 ^ w) with hlt | hge
    · simp [lexLt, hexDigitCode_lt hlt hd2]
    · have heq : n1 / 16 ^ w = n2 / 16 ^ w := by omega
      have e1 := Nat.div_add_mod n1 (16 ^ w)
      have e2 := Nat.div_add_mod n2 (16 ^ w)
      have hr : n1 % 16 ^ w < n2 % 16 ^ w := by
        have hsum : 16 ^ w * (n2 / 16 ^ w) + n1 % 16 ^ w <
            16 ^ w * (n2 / 16 ^ w) + n2 % 16 ^ w := by
          rw [← heq] at e2 ⊢
          rw [heq] at e2
          calc 16 ^ w * (n1 / 16 ^ w) + n1 % 16 ^ w = n1 := e1
          _ < n2 := h
          _ = 16 ^ w * (n1 / 16 ^ w) + n2 % 16 ^ w := by rw [heq, e2]
        exact Nat.lt_of_add_lt_add_left hsum
      have hmod : n2 % 16 ^ w < 16 ^ w := Nat.mod_lt _ hp
      have htail := ih (n1 % 16 ^ w) (n2 % 16 ^ w) hr hmod
      rw [heq]
      simp [lexLt, htail]

/-- The hyphenated textual forms of 128-bit values compare lexicographically
like the values themselves. -/
lemma lexLt_uuidStr (n1 n2 : Nat) (h : n1 < n2) (hb : n2 < 16 ^ 32) :
    lexLt (uuidStr n1) (uuidStr n2) = true := by
  have hstep : ∀ (p x y : Str), lexLt x y = true →
      lexLt (p ++ 45 :: x) (p ++ 45 :: y) = true := by
    intro p x y hxy
    apply lexLt_append_same
    simpa [lexLt] using hxy
  have i20 : ∀ m : Nat,
      16 ^ 4 * (m / 16 ^ 24) + m / 16 ^ 20 % 16 ^ 4 = m / 16 ^ 20 := by
    intro m
    have hdd : m / 16 ^ 20 / 16 ^ 4 = m / 16 ^ 24 := by
      rw [Nat.div_div_eq_div_mul]
      norm_num
    calc 16 ^ 4 * (m / 16 ^ 24) + m / 16 ^ 20 % 16 ^ 4
        = 16 ^ 4 * (m / 16 ^ 20 / 16 ^ 4) + m / 16 ^ 20 % 16 ^ 4 := by
          rw [hdd]
      _ = m / 16 ^ 20 := Nat.div_add_mod _ _
  have i16 : ∀ m : Nat,
      16 ^ 4 * (m / 16 ^ 20) + m / 16 ^ 16 % 16 ^ 4 = m / 16 ^ 16 := by
    intro m
    have hdd : m / 16 ^ 16 / 16 ^ 4 = m / 16 ^ 20 := by
      rw [Nat.div_div_eq_div_mul]
      norm_num
    calc 16 ^ 4 * (m / 16 ^ 20) + m / 16 ^ 16 % 16 ^ 4
        = 16 ^ 4 * (m / 16 ^ 16 / 16 ^ 4) + m / 16 ^ 16 % 16 ^ 4 := by
          rw [hdd]
      _ = m / 16 ^ 16 := Nat.div_add_mod _ _
  have i12 : ∀ m : Nat,
      16 ^ 4 * (m / 16 ^ 16) + m / 16 ^ 12 % 16 ^ 4 = m / 16 ^ 12 := by
    intro m
    have hdd : m / 16 ^ 12 / 16 ^ 4 = m / 16 ^ 16 := by
      rw [Nat.div_div_eq_div_mul]
      norm_num
    calc 16 ^ 4 * (m / 16 ^ 16) + m / 16 ^ 12 % 16 ^ 4
        = 16 ^ 4 * (m / 16 ^ 12 / 16 ^ 4) + m / 16 ^ 12 % 16 ^ 4 := by
          rw [hdd]
      _ = m / 16 ^ 12 := Nat.div_add_mod _ _
  simp only [uuidStr]
  rcases Nat.lt_or_ge (n1 / 16 ^ 24) (n2 / 16 ^ 24) with hA | hA
  · exact lexLt_append_blocks _ _ _ _ (by simp [hexStr_length])
      (lexLt_hexStr 8 _ _ hA (by omega))
  · have hAeq : n1 / 16 ^ 24 = n2 / 16 ^ 24 := by omega
    rw [hAeq]
    apply hstep
    have hi20a := i20 n1
    have hi20b := i20 n2
    have h20le : n1 / 16 ^ 20 ≤ n2 / 16 ^ 20 := by omega
    rcases Nat.lt_or_ge (n1 / 16 ^ 20 % 16 ^ 4) (n2 / 16 ^ 20 % 16 ^ 4)
      with hB | hB
    · exact lexLt_append_blocks _ _ _ _ (by simp [hexStr_length])
        (lexLt_hexStr 4 _ _ hB (by omega))
    · have hBeq : n1 / 16 ^ 20 % 16 ^ 4 = n2 / 16 ^ 20 % 16 ^ 4 := by omega
      have h20eq : n1 / 16 ^ 20 = n2 / 16 ^ 20 := by omega
      rw [hBeq]
      apply hstep
      have hi16a := i16 n1
      have hi16b := i16 n2
      have h16le : n1 / 16 ^ 16 ≤ n2 / 16 ^ 16 := by omega
      rcases Nat.lt_or_ge (n1 / 16 ^ 16 % 16 ^ 4) (n2 / 16 ^ 16 % 16 ^ 4)
        with hC | hC
      · exact lexLt_append_blocks _ _ _ _ (by simp [hexStr_length])
          (lexLt_hexStr 4 _ _ hC (by omega))
      · have hCeq : n1 / 16 ^ 16 % 16 ^ 4 = n2 / 16 ^ 16 % 16 ^ 4 := by
          omega
        have h16eq : n1 / 16 ^ 16 = n2 / 16 ^ 16 := by omega
        rw [hCeq]
        apply hstep
        have hi12a := i12 n1
        have hi12b := i12 n2
        have h12le : n1 / 16 ^ 12 ≤ n2 / 16 ^ 12 := by omega
        rcases Nat.lt_or_ge (n1 / 16 ^ 12 % 16 ^ 4) (n2 / 16 ^ 12 % 16 ^ 4)
          with hD | hD
        · exact lexLt_append_blocks _ _ _ _ (by simp [hexStr_length])
            (lexLt_hexStr 4 _ _ hD (by omega))
        · have hDeq : n1 / 16 ^ 12 % 16 ^ 4 = n2 / 16 ^ 12 % 16 ^ 4 := by
            omega
          have h12eq : n1 / 16 ^ 12 = n2 / 16 ^ 12 := by omega
          rw [hDeq]
          apply hstep
          have hE : n1 % 16 ^ 12 < n2 % 16 ^ 12 := by omega
          exact lexLt_hexStr 12 _ _ hE (by omega)

/-- C9: for two `generate_generation` calls at wall-clock seconds
`t1 < t2 ≤ 253370761200` (the inversion bound), whatever the nanosecond
parts and the random fields, the later UUID is smaller both as a 128-bit
value and lexicographically in its hyphenated textual form — ascending
lexical order of generation ids is descending chronological order. -/
theorem c9_generation_ordering (t1 t2 n1 n2 ra1 rb1 ra2 rb2 : Nat)
    (ht : t1 < t2) (hbound : t2 ≤ 253370761200)
    (hn1 : n1 < 1000000000) (hn2 : n2 < 1000000000)
    (hra1 : ra1 < 2 ^ 12) (hra2 : ra2 < 2 ^ 12)
    (hrb1 : rb1 < 2 ^ 62) (hrb2 : rb2 < 2 ^ 62) :
    generate_generation t2 n2 ra2 rb2 < generate_generation t1 n1 ra1 rb1 ∧
    lexLt (uuidStr (generate_generation t2 n2 ra2 rb2))
      (uuidStr (generate_generation t1 n1 ra1 rb1)) = true := by
  have hm : generation_millis t2 n2 < generation_millis t1 n1 := by
    unfold generation_millis
    omega
  have hm1 : generation_millis t1 n1 < 2 ^ 48 := by
    unfold generation_millis
    omega
  have hv : generate_generation t2 n2 ra2 rb2 <
      generate_generation t1 n1 ra1 rb1 := by
    unfold generate_generation uuid_v7_value
    omega
  have hb1 : generate_generation t1 n1 ra1 rb1 < 16 ^ 32 := by
    unfold generate_generation uuid_v7_value
    omega
  exact ⟨hv, lexLt_uuidStr _ _ hv hb1⟩

/-- Witness for C9: the generation created at second 200 sorts strictly
before the one created at second 100, numerically and textually. -/
theorem c9_generation_ordering_w :
    ((100 : Nat) < 200 ∧ (200 : Nat) ≤ 253370761200 ∧
      (0 : Nat) < 1000000000 ∧ (0 : Nat) < 2 ^ 12 ∧ (0 : Nat) < 2 ^ 62) ∧
    (generate_generation 200 0 0 0 < generate_generation 100 0 0 0 ∧
      lexLt (uuidStr (generate_generation 200 0 0 0))
        (uuidStr (generate_generation 100 0 0 0)) = true) :=
  ⟨⟨by decide, by decide, by decide, by decide, by decide⟩,
    c9_generation_ordering 100 200 0 0 0 0 0 0 (by decide) (by decide)
      (by decide) (by decide) (by decide) (by decide) (by decide)
      (by decide)⟩
